import Mathlib

/-! Portfolio page script (`script.js`): a shallow embedding.

Each feature of the page script is embedded as pure functions over an explicit
state: the theme preference (root `data-theme` attribute and the stored
`portfolio-theme` item), the scroll spy, the hamburger menu, the reveal
observer, the particle field and the coalesced scroll listener.

Class lists are represented by one boolean per class name the script touches
(`classList.add` sets it, `classList.remove` clears it, `classList.toggle`
flips or forces it).
-/

namespace Portfolio

/-! ## 1. Theme toggle -/

/-- How a piece of script ends: normally, or by an uncaught exception.  Both
carry the state reached, since mutations made before a throw stay in place. -/
inductive Outcome (σ : Type) where
  | done (s : σ)
  | threw (s : σ)
  deriving DecidableEq, Repr

/-- The state an outcome leaves behind. -/
def Outcome.state {σ : Type} : Outcome σ → σ
  | .done s => s
  | .threw s => s

/-- The origin's `localStorage`, restricted to the key `THEME_KEY`
(`'portfolio-theme'`).  `item` is what `getItem(THEME_KEY)` returns (`none` is
`null`); `readable = false` means reading throws (storage blocked), and
`writable = false` means `setItem` throws (blocked or quota exceeded). -/
structure Storage where
  item : Option String
  readable : Bool
  writable : Bool
  deriving DecidableEq, Repr

/-- The part of the page the theme code touches: the `data-theme` attribute of
the root element (`none` when the attribute is absent) and the storage. -/
structure ThemePage where
  dataTheme : Option String
  storage : Storage
  deriving DecidableEq, Repr

/-- JavaScript truthiness of a `getItem` result: `null` and the empty string
are falsy, every other string is truthy. -/
def truthy : Option String → Bool
  | none => false
  | some v => v != ""

/-- The function `applyTheme(theme)`: set the attribute, then persist. -/
def applyTheme (theme : String) (p : ThemePage) : Outcome ThemePage :=
  let p1 : ThemePage := { p with dataTheme := some theme }
  if p1.storage.writable then
    .done { p1 with storage := { p1.storage with item := some theme } }
  else
    .threw p1

/-- The function `initTheme()`: `sysDark` is the value of
`window.matchMedia('(prefers-color-scheme: dark)').matches`. -/
def initTheme (sysDark : Bool) (p : ThemePage) : Outcome ThemePage :=
  if p.storage.readable then
    match p.storage.item with
    | some stored =>
      if truthy (some stored) then applyTheme stored p
      else if sysDark then applyTheme "dark" p
      else .done p
    | none =>
      if sysDark then applyTheme "dark" p
      else .done p
  else
    .threw p

/-- The click listener of `themeToggle`. -/
def themeToggleClick (p : ThemePage) : Outcome ThemePage :=
  let current := p.dataTheme
  applyTheme (if current = some "dark" then "light" else "dark") p

/-- The page after `n` successive clicks on the theme toggle; each click is a
separate event, so a click runs on whatever state the previous one left. -/
def clicks : Nat → ThemePage → ThemePage
  | 0, p => p
  | n + 1, p => (themeToggleClick (clicks n p)).state

/-- A reload: the document is rebuilt from the markup (root attribute `markup`),
the storage survives, and `initTheme` runs again. -/
def reload (markup : Option String) (sysDark : Bool) (p : ThemePage) : Outcome ThemePage :=
  initTheme sysDark { dataTheme := markup, storage := p.storage }

/-- The theme a `data-theme` value stands for, as the toggle reads it:
`'dark'` is dark, anything else (also an absent attribute) counts as light. -/
def themeOf (attr : Option String) : String :=
  if attr = some "dark" then "dark" else "light"

/-- The other theme. -/
def opposite (t : String) : String :=
  if t = "dark" then "light" else "dark"

/-- The theme implied by the parity of the number of toggles: the initial theme
for an even count, the opposite one for an odd count. -/
def parityTheme (initial : Option String) (n : Nat) : String :=
  if n % 2 = 0 then themeOf initial else opposite (themeOf initial)

/-! ## Numbers -/

/-- Double-precision arithmetic on finite values, left abstract: whatever the
rounding, the three operations are functions of their operands. -/
structure FloatOps where
  add : ℚ → ℚ → ℚ
  sub : ℚ → ℚ → ℚ
  mul : ℚ → ℚ → ℚ

/-- Arithmetic without rounding. -/
def exactOps : FloatOps := ⟨fun a b => a + b, fun a b => a - b, fun a b => a * b⟩

/-! ## 2. Navbar shadow and 3. scroll spy -/

/-- A `section[id]` element: its `id` attribute, `offsetTop` and `offsetHeight`
(both integers in the DOM). -/
structure Section where
  id : String
  offsetTop : Int
  offsetHeight : Int
  deriving DecidableEq, Repr

/-- An `a` element inside `#navLinks`: its `href` attribute, whether it carries
the class `nav-resume-btn`, and whether it carries the class `active`. -/
structure Anchor where
  href : String
  resumeBtn : Bool
  active : Bool
  deriving DecidableEq, Repr

/-- Membership in `allNavAnchors`, i.e. `navLinks.querySelectorAll('a:not(.nav-resume-btn)')`:
the nav entries. -/
def isNavEntry (a : Anchor) : Bool := !a.resumeBtn

/-- The test `scrollY >= top && scrollY < top + height` of `handleScrollSpy`, where
`probe` is the local `scrollY`, that is the double `window.scrollY + 120`. -/
def inRange (probe : ℚ) (s : Section) : Bool :=
  decide ((s.offsetTop : ℚ) ≤ probe) && decide (probe < ((s.offsetTop + s.offsetHeight : Int) : ℚ))

/-- The effect of `allNavAnchors.forEach((a) => a.classList.remove('active'))` on
one anchor of `#navLinks`: only a member of `allNavAnchors` loses the class. -/
def clearOne (a : Anchor) : Anchor :=
  if isNavEntry a then { a with active := false } else a

/-- The statement `allNavAnchors.forEach((a) => a.classList.remove('active'))`: the anchors
carrying `nav-resume-btn` are not in `allNavAnchors` and are left alone. -/
def clearActive (as : List Anchor) : List Anchor :=
  as.map clearOne

/-- What `navLinks.querySelector(selector)` can do: reject the selector text with a
`SyntaxError`, return `null`, return the anchor number `i` of `#navLinks` (in
document order, `nav-resume-btn` anchors included), or return a descendant of
`#navLinks` that is not one of its anchors. -/
inductive Selected where
  | invalidSelector
  | noMatch
  | anchor (i : Nat)
  | other
  deriving DecidableEq, Repr

/-- The position of the first anchor whose `href` attribute is exactly `h`. -/
def firstHref (h : String) : List Anchor → Option Nat
  | [] => none
  | a :: rest => if a.href = h then some 0 else (firstHref h rest).map (fun i => i + 1)

/-- The result of an attribute selector that compares `href` with the text `h`:
the first anchor in document order with that `href`, or `null`. -/
def plainMatch (h : String) (as : List Anchor) : Selected :=
  match firstHref h as with
  | some i => .anchor i
  | none => .noMatch

/-- A character that stands for itself inside a double-quoted CSS string: not the
double quote (34), the backslash (92), a line feed, carriage return or form feed
(10, 13, 12), nor NUL (0). -/
def cssPlainChar (c : Char) : Bool :=
  c.toNat != 34 && c.toNat != 92 && c.toNat != 10 && c.toNat != 13 && c.toNat != 12 &&
    c.toNat != 0

/-- An `id` that needs no escape inside a double-quoted CSS string, so that the
selector text `a[href="#id"]` compares `href` with `'#' + id`. -/
def cssPlain (id : String) : Bool := id.data.all cssPlainChar

/-- An `id` made of plain characters, a double quote, then only letters and
digits: in `a[href="#id"]` the quote ends the string early and what follows
cannot close the attribute selector. -/
def quoteThenAlnum (id : String) : Bool :=
  match id.data.dropWhile (fun c => c.toNat != 34) with
  | [] => false
  | _ :: q => (id.data.takeWhile (fun c => c.toNat != 34)).all cssPlainChar && q.all Char.isAlphanum

/-- The selector engine of the host: `querySelector id as` is the result of
`navLinks.querySelector('a[href="#' + id + '"]')` when the anchors of `#navLinks`
are `as`.  The script interpolates `id` without escaping it, so the result
depends on how the text parses as CSS. -/
structure Browser where
  querySelector : String → List Anchor → Selected

/-- The two facts about CSS parsing that are used: a plain `id` gives an exact
comparison of `href` with `'#' + id`, and an `id` with a quote followed by
letters and digits gives a `SyntaxError`. -/
def Browser.Conforms (B : Browser) : Prop :=
  (∀ id as, cssPlain id = true → B.querySelector id as = plainMatch ("#" ++ id) as) ∧
  (∀ id as, quoteThenAlnum id = true → B.querySelector id as = .invalidSelector)

/-- A conforming engine: exact comparison for a plain `id`, `SyntaxError` for an
`id` with a quote followed by letters and digits, and the answer of `rest` for
every other `id`. -/
def engineWith (rest : String → List Anchor → Selected) : Browser :=
  ⟨fun id as =>
    if cssPlain id then plainMatch ("#" ++ id) as
    else if quoteThenAlnum id then .invalidSelector
    else rest id as⟩

/-- The engine used to evaluate examples.  Every id in the examples is plain or is
a quote followed by letters, so the choice of `rest` plays no part in them. -/
def refBrowser : Browser := engineWith (fun _ _ => .noMatch)

/-- The id made of `x`, a double quote and `y`. -/
def quotedId : String := String.mk [Char.ofNat 120, Char.ofNat 34, Char.ofNat 121]

/-- The effect of `classList.add('active')` on an anchor. -/
def activate (a : Anchor) : Anchor := { a with active := true }

/-- The statement `if (match) match.classList.add('active')` on the anchors. -/
def addActive (m : Selected) (as : List Anchor) : List Anchor :=
  match m with
  | .anchor i => as.modify activate i
  | _ => as

/-- The body of `sections.forEach` in `handleScrollSpy` for one section: when the
probe is in range, clear the nav entries, run `querySelector` (which may throw,
after the clearing) and mark the match. -/
def spyStep (B : Browser) (probe : ℚ) (as : List Anchor) (s : Section) :
    Outcome (List Anchor) :=
  if inRange probe s then
    let cleared := clearActive as
    match B.querySelector s.id cleared with
    | .invalidSelector => .threw cleared
    | m => .done (addActive m cleared)
  else .done as

/-- The loop `sections.forEach(...)`: an exception in the callback ends the loop. -/
def spyLoop (B : Browser) (probe : ℚ) : List Section → List Anchor → Outcome (List Anchor)
  | [], as => .done as
  | s :: rest, as =>
    match spyStep B probe as s with
    | .done as1 => spyLoop B probe rest as1
    | .threw as1 => .threw as1

/-- The function `handleScrollSpy()`: `scrollY` is `window.scrollY`, the probe is the
double-precision sum `window.scrollY + 120`, `sections` are the `section[id]`
elements in document order, `as` the anchors of `#navLinks`. -/
def handleScrollSpy (F : FloatOps) (B : Browser) (scrollY : ℚ) (sections : List Section)
    (as : List Anchor) : Outcome (List Anchor) :=
  spyLoop B (F.add scrollY 120) sections as

/-- The function `handleNavScroll()`: the new presence of the class `scrolled` on the navbar. -/
def handleNavScroll (scrollY : ℚ) : Bool := decide (scrollY > 20)

/-- Two sections overlap when their ranges `[top, top + height)` share a point. -/
def overlap (s t : Section) : Prop :=
  max s.offsetTop t.offsetTop < min (s.offsetTop + s.offsetHeight) (t.offsetTop + t.offsetHeight)

instance (s t : Section) : Decidable (overlap s t) := by
  unfold overlap; infer_instance

/-- The number of nav entries (anchors of `allNavAnchors`) marked active. -/
def activeCount (as : List Anchor) : Nat :=
  as.countP (fun a => isNavEntry a && a.active)

/-- The number of anchors of `#navLinks` marked active, `nav-resume-btn` anchors
included. -/
def activeAnchors (as : List Anchor) : Nat :=
  as.countP (fun a => a.active)

/-! ### The coalesced scroll listener -/

/-- What the scroll listener and its frame callback read and write: the scroll
offset, the class `scrolled` of the navbar, the anchors of `#navLinks`, the
variable `ticking`, and the number of the listener's callbacks waiting in the
animation-frame queue. -/
structure ScrollState where
  scrollY : ℚ
  navbarScrolled : Bool
  anchors : List Anchor
  ticking : Bool
  pending : Nat
  deriving DecidableEq

/-- The listener of the `scroll` event. -/
def scrollListener (s : ScrollState) : ScrollState :=
  if !s.ticking then
    { s with pending := s.pending + 1, ticking := true }
  else s

/-- The callback handed to `requestAnimationFrame` by the scroll listener: when
`handleScrollSpy` throws, the assignment `ticking = false` is not reached. -/
def frameCallback (F : FloatOps) (B : Browser) (sections : List Section) (s : ScrollState) :
    Outcome ScrollState :=
  let s1 := { s with navbarScrolled := handleNavScroll s.scrollY }
  match handleScrollSpy F B s1.scrollY sections s1.anchors with
  | .done as => .done { s1 with anchors := as, ticking := false }
  | .threw as => .threw { s1 with anchors := as }

/-- What can happen to the scroll state: the page is scrolled to offset `y` (the
browser updates `window.scrollY` and dispatches `scroll`), or an animation frame
fires and runs every queued callback. -/
inductive ScrollEvent where
  | scroll (y : ℚ)
  | frame

/-- One step of the scroll state.  A frame runs each queued callback; an exception
in a callback is reported by the host and does not undo what the callback did. -/
def scrollStep (F : FloatOps) (B : Browser) (sections : List Section) (s : ScrollState) :
    ScrollEvent → ScrollState
  | .scroll y => scrollListener { s with scrollY := y }
  | .frame =>
    { (Nat.iterate (fun t => (frameCallback F B sections t).state) s.pending s) with pending := 0 }

/-- The state after a sequence of events. -/
def scrollRun (F : FloatOps) (B : Browser) (sections : List Section) (s : ScrollState)
    (evs : List ScrollEvent) : ScrollState :=
  evs.foldl (scrollStep F B sections) s

/-- The state once the script has loaded: `ticking = false`, nothing queued, and
the two handlers fired once (an exception in this first `handleScrollSpy` ends
the script, with the scroll listener already registered and the anchors as the
call left them). -/
def scrollInit (F : FloatOps) (B : Browser) (sections : List Section) (scrollY : ℚ)
    (as : List Anchor) : ScrollState :=
  { scrollY := scrollY, navbarScrolled := handleNavScroll scrollY,
    anchors := (handleScrollSpy F B scrollY sections as).state, ticking := false, pending := 0 }

/-- The guard matches the queue: either a callback is queued and `ticking` is
set, or nothing is queued and `ticking` is clear. -/
def Coalesced (s : ScrollState) : Prop :=
  (s.ticking = true ∧ s.pending = 1) ∨ (s.ticking = false ∧ s.pending = 0)

/-- The guard is set although nothing is queued: the scroll listener will never
queue a callback again. -/
def Stuck (s : ScrollState) : Prop :=
  s.ticking = true ∧ s.pending = 0

/-! ## 4. Hamburger menu -/

/-- The menu: class `active` of the hamburger, class `open` of `#navLinks`, class
`active` of the overlay, and `document.body.style.overflow`. -/
structure Menu where
  hamburgerActive : Bool
  navOpen : Bool
  overlayActive : Bool
  bodyOverflow : String
  deriving DecidableEq, Repr

/-- The function `closeMenu()`: four unconditional writes. -/
def closeMenu (m : Menu) : Menu :=
  let m1 := { m with hamburgerActive := false }
  let m2 := { m1 with navOpen := false }
  let m3 := { m2 with overlayActive := false }
  { m3 with bodyOverflow := "" }

/-- The click listener of the hamburger: `classList.toggle('active')` returns the
new presence of the class, which is then forced on the panel and the overlay. -/
def hamburgerClick (m : Menu) : Menu :=
  let isOpen := !m.hamburgerActive
  let m1 := { m with hamburgerActive := isOpen }
  let m2 := { m1 with navOpen := isOpen }
  let m3 := { m2 with overlayActive := isOpen }
  { m3 with bodyOverflow := if isOpen then "hidden" else "" }

/-- A closed menu: no hamburger/panel/overlay marker and no scroll lock. -/
def Menu.isClosed (m : Menu) : Prop :=
  m.hamburgerActive = false ∧ m.navOpen = false ∧ m.overlayActive = false ∧ m.bodyOverflow = ""

/-! ## 5. Reveal on scroll -/

/-- A reveal target (`.reveal`, `.reveal-left`, `.reveal-right`, `.reveal-scale`):
its classes `active`, `skill-card` and `hover-ready`, whether the observer still
observes it, and how many `setTimeout` callbacks are waiting for it. -/
structure RevealEl where
  active : Bool
  skillCard : Bool
  hoverReady : Bool
  observed : Bool
  timers : Nat
  deriving DecidableEq, Repr

/-- The reveal block at load: with `IntersectionObserver` in `window` every
target is observed, otherwise every target is marked active at once. -/
def initReveal (hasObserver : Bool) (els : List RevealEl) : List RevealEl :=
  if hasObserver then els.map (fun el => { el with observed := true })
  else els.map (fun el => { el with active := true })

/-- The body of `entries.forEach` on one target, for an entry with the given
`isIntersecting`. -/
def onEntry (isIntersecting : Bool) (el : RevealEl) : RevealEl :=
  if isIntersecting then
    let el1 := { el with active := true }
    let el2 := { el1 with observed := false }
    if el2.skillCard then { el2 with timers := el2.timers + 1 } else el2
  else el

/-- The `setTimeout` callback: `entry.target.classList.add('hover-ready')`. -/
def onTimer (el : RevealEl) : RevealEl :=
  if 0 < el.timers then { el with hoverReady := true, timers := el.timers - 1 } else el

/-- What the host can deliver to the reveal code: an observer entry for target
number `target`, or the firing of a timer set for that target. -/
inductive RevealEvent where
  | entry (target : Nat) (isIntersecting : Bool)
  | timer (target : Nat)
  deriving DecidableEq, Repr

/-- One step of the reveal targets. -/
def revealStep (els : List RevealEl) : RevealEvent → List RevealEl
  | .entry i b => els.modify (onEntry b) i
  | .timer i => els.modify onTimer i

/-- The successive states of the targets along a sequence of events, the starting
state first. -/
def revealTrace (els : List RevealEl) : List RevealEvent → List (List RevealEl)
  | [] => [els]
  | e :: rest => els :: revealTrace (revealStep els e) rest

/-- The state after a sequence of events. -/
def revealRun (els : List RevealEl) (evs : List RevealEvent) : List RevealEl :=
  evs.foldl revealStep els

/-- Whether target `i` carries the class `active` in a state. -/
def isActive (els : List RevealEl) (i : Nat) : Bool :=
  match els[i]? with
  | some el => el.active
  | none => false

/-- Whether target `i` is observed in a state. -/
def isObserved (els : List RevealEl) (i : Nat) : Bool :=
  match els[i]? with
  | some el => el.observed
  | none => false

/-- The number of times target `i` goes from not active to active along a list of
successive states. -/
def activations (i : Nat) : List (List RevealEl) → Nat
  | s :: t :: rest =>
    (if !isActive s i && isActive t i then 1 else 0) + activations i (t :: rest)
  | _ => 0

/-- The number of times target `i` goes from active to not active along a list of
successive states. -/
def deactivations (i : Nat) : List (List RevealEl) → Nat
  | s :: t :: rest =>
    (if isActive s i && !isActive t i then 1 else 0) + deactivations i (t :: rest)
  | _ => 0

/-! ## 7. Particle canvas -/

/-- A particle record. -/
structure Particle where
  x : ℚ
  y : ℚ
  r : ℚ
  dx : ℚ
  dy : ℚ
  o : ℚ
  deriving DecidableEq

/-- The particle count of `createParticles`:
`Math.min(Math.floor(canvas.width * canvas.height / 10000), 120)`.  The canvas
dimensions are unsigned integers; below the cap the product and the quotient
are far from the precision limit of a double, so the floor of the quotient is
the integer quotient. -/
def particleCount (width height : Nat) : Nat :=
  min (width * height / 10000) 120

/-- The record pushed by iteration `i` of the loop of `createParticles`; `rand k`
is the value of the `k`-th call of `Math.random()` since the loop started, six
calls per iteration. -/
def newParticle (F : FloatOps) (rand : Nat → ℚ) (width height i : Nat) : Particle :=
  { x := F.mul (rand (6 * i)) width
    y := F.mul (rand (6 * i + 1)) height
    r := F.add (F.mul (rand (6 * i + 2)) 2) (1 / 2)
    dx := F.mul (F.sub (rand (6 * i + 3)) (1 / 2)) (2 / 5)
    dy := F.mul (F.sub (rand (6 * i + 4)) (1 / 2)) (2 / 5)
    o := F.add (F.mul (rand (6 * i + 5)) (7 / 20)) (1 / 20) }

/-- The loop `for (let i = ...; i < count; i++) particles.push({...})` from counter
`i` and array `particles`. -/
def createLoop (F : FloatOps) (rand : Nat → ℚ) (width height count : Nat)
    (i : Nat) (particles : List Particle) : List Particle :=
  if i < count then
    createLoop F rand width height count (i + 1) (particles ++ [newParticle F rand width height i])
  else particles
termination_by count - i

/-- The function `createParticles()`: empty the array, compute the count, run the loop. -/
def createParticles (F : FloatOps) (rand : Nat → ℚ) (width height : Nat) : List Particle :=
  let particles : List Particle := []
  let count := particleCount width height
  createLoop F rand width height count 0 particles

/-- The wrap of one coordinate in `draw`: `if (v < 0) v = size; if (v > size) v = 0;`
executed in this order. -/
def wrap (size : Nat) (v : ℚ) : ℚ :=
  let v1 := if v < 0 then (size : ℚ) else v
  if v1 > (size : ℚ) then 0 else v1

/-- The position update of one particle in `draw`: integrate, then wrap. -/
def updateParticle (F : FloatOps) (width height : Nat) (p : Particle) : Particle :=
  let p1 := { p with x := F.add p.x p.dx }
  let p2 := { p1 with y := F.add p1.y p1.dy }
  let p3 := { p2 with x := if p2.x < 0 then (width : ℚ) else p2.x }
  let p4 := { p3 with x := if p3.x > (width : ℚ) then 0 else p3.x }
  let p5 := { p4 with y := if p4.y < 0 then (height : ℚ) else p4.y }
  { p5 with y := if p5.y > (height : ℚ) then 0 else p5.y }

/-- The particle pass of `draw`. -/
def updateParticles (F : FloatOps) (width height : Nat) (ps : List Particle) : List Particle :=
  ps.map (updateParticle F width height)

/-- The inner loop `for (let j = i + 1; j < n; j++)` of the connecting-line pass:
the pairs it examines, in order. -/
def innerPairs (n i : Nat) : List (Nat × Nat) :=
  (List.range' (i + 1) (n - (i + 1))).map fun j => (i, j)

/-- The loop nest `for (let i = 0; i < n; i++) for (let j = i + 1; j < n; j++)` of
the connecting-line pass over `n` particles: the pairs it examines, in order. -/
def examinedPairs (n : Nat) : List (Nat × Nat) :=
  (List.range n).flatMap (innerPairs n)

end Portfolio

namespace Portfolio

/-! ## Theorems: theme -/

theorem opposite_themeOf_twice (a : Option String) :
    opposite (opposite (themeOf a)) = themeOf a := by
  unfold themeOf
  split <;> decide

theorem parityTheme_succ (a : Option String) (n : Nat) :
    parityTheme a (n + 1) = opposite (parityTheme a n) := by
  unfold parityTheme
  rcases Nat.mod_two_eq_zero_or_one n with h | h
  · have h1 : (n + 1) % 2 = 1 := by omega
    simp [h, h1]
  · have h1 : (n + 1) % 2 = 0 := by omega
    simp [h, h1, opposite_themeOf_twice]

theorem themeToggleClick_writable (p : ThemePage) (hw : p.storage.writable = true) :
    themeToggleClick p =
      .done ⟨some (opposite (themeOf p.dataTheme)),
        ⟨some (opposite (themeOf p.dataTheme)), p.storage.readable, true⟩⟩ := by
  unfold themeToggleClick applyTheme opposite themeOf
  by_cases h : p.dataTheme = some "dark" <;> simp [h, hw]

theorem clicks_succ_item (p : ThemePage) (hw : p.storage.writable = true) (n : Nat) :
    (clicks (n + 1) p).storage.writable = true ∧
    (clicks (n + 1) p).storage.readable = p.storage.readable ∧
    (clicks (n + 1) p).storage.item = some (parityTheme p.dataTheme (n + 1)) ∧
    (clicks (n + 1) p).dataTheme = some (parityTheme p.dataTheme (n + 1)) := by
  induction n with
  | zero =>
    have h0 : parityTheme p.dataTheme 1 = opposite (themeOf p.dataTheme) := by
      simp [parityTheme]
    simp [clicks, themeToggleClick_writable p hw, Outcome.state, h0]
  | succ k ih =>
    obtain ⟨h1, h2, h3, h4⟩ := ih
    have hstep := themeToggleClick_writable (clicks (k + 1) p) h1
    have hth : themeOf (clicks (k + 1) p).dataTheme = parityTheme p.dataTheme (k + 1) := by
      rw [h4]
      unfold themeOf
      by_cases hd : parityTheme p.dataTheme (k + 1) = "dark"
      · simp [hd]
      · have : parityTheme p.dataTheme (k + 1) = "light" := by
          unfold parityTheme themeOf opposite at hd ⊢
          split_ifs at hd ⊢ <;> simp_all
        simp [this]
    have hc : clicks (k + 1 + 1) p = (themeToggleClick (clicks (k + 1) p)).state := rfl
    rw [hc, hstep, hth, ← parityTheme_succ, h2]
    simp [Outcome.state]

theorem parityTheme_ne_empty (a : Option String) (n : Nat) : parityTheme a n ≠ "" := by
  unfold parityTheme themeOf opposite
  split_ifs <;> decide

theorem initTheme_stored (sysDark : Bool) (p : ThemePage) (v : String)
    (hr : p.storage.readable = true) (hw : p.storage.writable = true)
    (hv : p.storage.item = some v) (hne : v ≠ "") :
    initTheme sysDark p = .done ⟨some v, ⟨some v, p.storage.readable, p.storage.writable⟩⟩ := by
  simp [initTheme, hr, hv, truthy, hne, applyTheme, hw]

/-- C1, refuted as stated: after a sequence of zero clicks on a freshly initialised
page with nothing stored and a light system preference, nothing is persisted,
while the claim asks for the persisted value to be the initial theme. -/
theorem theme_zero_clicks_nothing_persisted :
    initTheme false ⟨some "light", ⟨none, true, true⟩⟩
        = .done ⟨some "light", ⟨none, true, true⟩⟩ ∧
      (clicks 0 ⟨some "light", ⟨none, true, true⟩⟩).storage.item = none ∧
      (clicks 0 ⟨some "light", ⟨none, true, true⟩⟩).storage.item
        ≠ some (parityTheme (some "light") 0) ∧
      (clicks 0 ⟨some "light", ⟨none, true, true⟩⟩).storage.item
        ≠ (clicks 0 ⟨some "light", ⟨none, true, true⟩⟩).dataTheme := by
  decide

/-- C1, amended: with a working storage, after every sequence of `n ≥ 1` clicks on
the theme toggle the persisted value is the theme implied by the parity of `n`
from the initial theme, it equals the root `data-theme` attribute, and a reload
(whatever the markup attribute and the system preference) sets `data-theme` to
exactly that persisted value and keeps it persisted; a sequence of zero clicks
leaves the page as it was. -/
theorem theme_after_clicks (p : ThemePage) (hr : p.storage.readable = true)
    (hw : p.storage.writable = true) (n : Nat) :
    (n = 0 → clicks n p = p) ∧
    (0 < n →
      (clicks n p).storage.item = some (parityTheme p.dataTheme n) ∧
      (clicks n p).dataTheme = (clicks n p).storage.item ∧
      ∀ (markup : Option String) (sysDark : Bool),
        reload markup sysDark (clicks n p)
          = .done ⟨(clicks n p).storage.item, (clicks n p).storage⟩) := by
  refine ⟨fun h => by subst h; rfl, fun hn => ?_⟩
  obtain ⟨m, rfl⟩ : ∃ m, n = m + 1 := ⟨n - 1, by omega⟩
  obtain ⟨h1, h2, h3, h4⟩ := clicks_succ_item p hw m
  refine ⟨h3, by rw [h3, h4], fun markup sysDark => ?_⟩
  have hq : ((⟨markup, (clicks (m + 1) p).storage⟩ : ThemePage)).storage.item
      = some (parityTheme p.dataTheme (m + 1)) := h3
  unfold reload
  rw [initTheme_stored sysDark _ _ (by simpa [h2] using hr) (by simpa using h1) hq
    (parityTheme_ne_empty _ _)]
  simp only [h3]
  congr 2
  cases hs : (clicks (m + 1) p).storage with
  | mk it rd wr =>
    rw [hs] at h3
    simp at h3
    simp [h3]

/-- Witness for `theme_after_clicks`: three clicks from a light page with an empty,
working storage. -/
theorem theme_after_clicks_witness :
    (clicks 3 ⟨some "light", ⟨none, true, true⟩⟩).storage.item = some "dark" ∧
    (clicks 3 ⟨some "light", ⟨none, true, true⟩⟩).dataTheme = some "dark" ∧
    reload none false (clicks 3 ⟨some "light", ⟨none, true, true⟩⟩)
      = .done ⟨some "dark", ⟨some "dark", true, true⟩⟩ := by
  have h := (theme_after_clicks ⟨some "light", ⟨none, true, true⟩⟩ rfl rfl 3).2 (by decide)
  refine ⟨by decide, by decide, ?_⟩
  rw [h.2.2 none false]
  decide

/-- C2, refuted as stated: an empty string persisted under the key is a stored
value, yet with a dark system preference the theme becomes `'dark'`, not the
stored value. -/
theorem initTheme_empty_string_not_used :
    (initTheme true ⟨none, ⟨some "", true, true⟩⟩).state.dataTheme = some "dark" ∧
      (initTheme true ⟨none, ⟨some "", true, true⟩⟩).state.dataTheme ≠ some "" := by
  decide

/-- C2, amended: with a working storage, `initTheme` chooses by precedence: a
non-empty persisted value becomes the `data-theme` attribute (and stays
persisted); failing that (nothing stored, or the empty string), a matching
system dark-mode query makes the theme `'dark'` and persists it; failing both,
nothing is changed, so the theme is the one of the markup, which is light
whenever the markup attribute is not `'dark'`. -/
theorem initTheme_precedence (p : ThemePage) (sysDark : Bool)
    (hr : p.storage.readable = true) (hw : p.storage.writable = true) :
    (∀ v, p.storage.item = some v → v ≠ "" →
      initTheme sysDark p = .done ⟨some v, ⟨some v, true, true⟩⟩) ∧
    (truthy p.storage.item = false → sysDark = true →
      initTheme sysDark p = .done ⟨some "dark", ⟨some "dark", true, true⟩⟩) ∧
    (truthy p.storage.item = false → sysDark = false →
      initTheme sysDark p = .done p ∧
      (p.dataTheme ≠ some "dark" → themeOf (initTheme sysDark p).state.dataTheme = "light")) := by
  refine ⟨fun v hv hne => ?_, fun ht hs => ?_, fun ht hs => ?_⟩
  · rw [initTheme_stored sysDark p v hr hw hv hne, hr, hw]
  · cases hi : p.storage.item with
    | none => simp [initTheme, hr, hi, hs, applyTheme, hw]
    | some v =>
      rw [hi] at ht
      simp [initTheme, hr, hi, ht, hs, applyTheme, hw]
  · have h0 : initTheme sysDark p = .done p := by
      cases hi : p.storage.item with
      | none => simp [initTheme, hr, hi, hs]
      | some v =>
        rw [hi] at ht
        simp [initTheme, hr, hi, ht, hs]
    refine ⟨h0, fun hd => ?_⟩
    rw [h0]
    simp [Outcome.state, themeOf, hd]

/-- Witness for `initTheme_precedence`: a stored `'dark'` wins over a light system
preference. -/
theorem initTheme_precedence_witness :
    initTheme false ⟨none, ⟨some "dark", true, true⟩⟩
      = .done ⟨some "dark", ⟨some "dark", true, true⟩⟩ :=
  (initTheme_precedence ⟨none, ⟨some "dark", true, true⟩⟩ false rfl rfl).1 "dark" rfl
    (by decide)

/-- C3, refuted as stated: when reading the storage throws, `initTheme` ends with
an uncaught exception and leaves the page untouched, whereas with no stored
preference and a dark system preference it would have applied `'dark'`. -/
theorem initTheme_unreadable_storage_throws :
    initTheme true ⟨none, ⟨none, false, true⟩⟩ = .threw ⟨none, ⟨none, false, true⟩⟩ ∧
      initTheme true ⟨none, ⟨none, true, true⟩⟩
        = .done ⟨some "dark", ⟨some "dark", true, true⟩⟩ := by
  decide

/-- C3, amended: storage failures are not caught.  If reading the persisted theme
throws, `initTheme` raises and changes nothing; if reading works but writing
throws, `initTheme` raises after having set `data-theme` (to the non-empty
stored value, else to `'dark'` under a dark system preference) and leaves the
storage as it was; it completes normally when storage access succeeds, and also
when reading works and nothing has to be written. -/
theorem initTheme_storage_failure (p : ThemePage) (sysDark : Bool) :
    (p.storage.readable = false → initTheme sysDark p = .threw p) ∧
    (p.storage.readable = true → p.storage.writable = false →
      (∀ v, p.storage.item = some v → v ≠ "" →
        initTheme sysDark p = .threw ⟨some v, p.storage⟩) ∧
      (truthy p.storage.item = false → sysDark = true →
        initTheme sysDark p = .threw ⟨some "dark", p.storage⟩)) ∧
    (p.storage.readable = true → truthy p.storage.item = false → sysDark = false →
      initTheme sysDark p = .done p) ∧
    (p.storage.readable = true → p.storage.writable = true →
      ∃ q, initTheme sysDark p = .done q) := by
  refine ⟨fun hr => by simp [initTheme, hr], fun hr hw => ⟨fun v hv hne => ?_, fun ht hs => ?_⟩,
    fun hr ht hs => ?_, fun hr hw => ?_⟩
  · simp [initTheme, hr, hv, truthy, hne, applyTheme, hw]
  · cases hi : p.storage.item with
    | none => simp [initTheme, hr, hi, hs, applyTheme, hw]
    | some v =>
      rw [hi] at ht
      simp [initTheme, hr, hi, ht, hs, applyTheme, hw]
  · cases hi : p.storage.item with
    | none => simp [initTheme, hr, hi, hs]
    | some v =>
      rw [hi] at ht
      simp [initTheme, hr, hi, ht, hs]
  · unfold initTheme applyTheme
    simp only [hr, hw, if_true]
    split <;> split_ifs <;> exact ⟨_, rfl⟩

/-- Witness for `initTheme_storage_failure`: a stored `'dark'` that cannot be
written back. -/
theorem initTheme_storage_failure_witness :
    initTheme false ⟨none, ⟨some "dark", true, false⟩⟩
      = .threw ⟨some "dark", ⟨some "dark", true, false⟩⟩ :=
  ((initTheme_storage_failure ⟨none, ⟨some "dark", true, false⟩⟩ false).2.1 rfl rfl).1
    "dark" rfl (by decide)

/-! ## Theorems: scroll spy -/

theorem not_cssPlain_of_quoteThenAlnum (id : String) (h : quoteThenAlnum id = true) :
    cssPlain id = false := by
  unfold quoteThenAlnum at h
  unfold cssPlain
  generalize id.data = cs at h ⊢
  induction cs with
  | nil => simp [List.dropWhile] at h
  | cons c rest ih =>
    by_cases hc : c.toNat = 34
    · simp [List.all_cons, cssPlainChar, hc]
    · have hc1 : (c.toNat != 34) = true := by simpa using hc
      simp only [List.dropWhile_cons, hc1, if_true, List.takeWhile_cons, List.all_cons] at h
      have h2 : (match List.dropWhile (fun c => c.toNat != 34) rest with
          | [] => false
          | _ :: q => (List.takeWhile (fun c => c.toNat != 34) rest).all cssPlainChar &&
              q.all Char.isAlphanum) = true := by
        revert h
        cases List.dropWhile (fun c => c.toNat != 34) rest with
        | nil => simp
        | cons d q => simp; intro _ h2 h3; exact ⟨h2, h3⟩
      rw [List.all_cons, ih h2, Bool.and_false]

theorem engineWith_conforms (rest : String → List Anchor → Selected) :
    (engineWith rest).Conforms := by
  refine ⟨fun id as h => by simp [engineWith, h], fun id as h => ?_⟩
  simp [engineWith, not_cssPlain_of_quoteThenAlnum id h, h]

theorem refBrowser_conforms : refBrowser.Conforms := engineWith_conforms _

theorem spyLoop_of_not_inRange (B : Browser) (probe : ℚ) (l : List Section) (as : List Anchor)
    (h : ∀ s ∈ l, inRange probe s = false) : spyLoop B probe l as = .done as := by
  induction l generalizing as with
  | nil => rfl
  | cons s rest ih =>
    have hs : inRange probe s = false := h s (List.mem_cons_self _ _)
    have hr : ∀ t ∈ rest, inRange probe t = false := fun t ht => h t (List.mem_cons_of_mem _ ht)
    simp [spyLoop, spyStep, hs, ih as hr]

theorem spyLoop_append (B : Browser) (probe : ℚ) (l1 l2 : List Section) (as : List Anchor) :
    spyLoop B probe (l1 ++ l2) as =
      match spyLoop B probe l1 as with
      | .done as1 => spyLoop B probe l2 as1
      | .threw as1 => .threw as1 := by
  induction l1 generalizing as with
  | nil => rfl
  | cons s rest ih =>
    simp only [List.cons_append, spyLoop]
    cases spyStep B probe as s with
    | done as1 => exact ih as1
    | threw as1 => rfl

theorem overlap_of_inRange (probe : ℚ) (s t : Section)
    (hs : inRange probe s = true) (ht : inRange probe t = true) : overlap s t := by
  simp only [inRange, Bool.and_eq_true, decide_eq_true_eq] at hs ht
  obtain ⟨hs1, hs2⟩ := hs
  obtain ⟨ht1, ht2⟩ := ht
  have a1 : s.offsetTop < s.offsetTop + s.offsetHeight := by exact_mod_cast lt_of_le_of_lt hs1 hs2
  have a2 : s.offsetTop < t.offsetTop + t.offsetHeight := by exact_mod_cast lt_of_le_of_lt hs1 ht2
  have a3 : t.offsetTop < s.offsetTop + s.offsetHeight := by exact_mod_cast lt_of_le_of_lt ht1 hs2
  have a4 : t.offsetTop < t.offsetTop + t.offsetHeight := by exact_mod_cast lt_of_le_of_lt ht1 ht2
  unfold overlap
  exact max_lt (lt_min a1 a2) (lt_min a3 a4)

theorem spyLoop_single (B : Browser) (probe : ℚ) (sections : List Section) (S : Section)
    (as : List Anchor) (hdis : sections.Pairwise (fun s t => ¬ overlap s t))
    (hS : S ∈ sections) (hin : inRange probe S = true) :
    spyLoop B probe sections as = spyStep B probe as S := by
  obtain ⟨l1, l2, rfl⟩ := List.append_of_mem hS
  rw [List.pairwise_append] at hdis
  obtain ⟨-, h2, h12⟩ := hdis
  rw [List.pairwise_cons] at h2
  have hl1 : ∀ s ∈ l1, inRange probe s = false := by
    intro s hs
    by_contra hc
    exact h12 s hs S (List.mem_cons_self _ _)
      (overlap_of_inRange _ s S (by simpa using hc) hin)
  have hl2 : ∀ s ∈ l2, inRange probe s = false := by
    intro s hs
    by_contra hc
    exact h2.1 s hs (overlap_of_inRange _ S s hin (by simpa using hc))
  rw [spyLoop_append, spyLoop_of_not_inRange B probe l1 as hl1]
  simp only [spyLoop]
  cases spyStep B probe as S with
  | done as1 => exact spyLoop_of_not_inRange B probe l2 as1 hl2
  | threw as1 => rfl

theorem clearOne_href (a : Anchor) : (clearOne a).href = a.href := by
  unfold clearOne; split <;> rfl

theorem clearOne_isNavEntry (a : Anchor) : isNavEntry (clearOne a) = isNavEntry a := by
  unfold clearOne; split <;> rfl

theorem clearOne_inactive (a : Anchor) (h : isNavEntry a = true) :
    (clearOne a).active = false := by
  simp [clearOne, h]

theorem activate_clearOne (a : Anchor) : activate (clearOne a) = { a with active := true } := by
  unfold activate clearOne; split <;> rfl

theorem firstHref_append (h : String) (pre post : List Anchor) (e : Anchor)
    (hpre : ∀ a ∈ pre, a.href ≠ h) (he : e.href = h) :
    firstHref h (pre ++ e :: post) = some pre.length := by
  induction pre with
  | nil => simp [firstHref, he]
  | cons a rest ih =>
    have ha : a.href ≠ h := hpre a (List.mem_cons_self _ _)
    have hr : ∀ b ∈ rest, b.href ≠ h := fun b hb => hpre b (List.mem_cons_of_mem _ hb)
    simp [firstHref, ha, ih hr]

theorem modify_append_length {α : Type} (f : α → α) (pre post : List α) (e : α) :
    (pre ++ e :: post).modify f pre.length = pre ++ f e :: post := by
  induction pre with
  | nil => rfl
  | cons a rest ih => simp [ih]

theorem clearActive_inactive (as : List Anchor) :
    ∀ a ∈ clearActive as, isNavEntry a = true → a.active = false := by
  intro a ha hn
  simp only [clearActive, List.mem_map] at ha
  obtain ⟨b, -, rfl⟩ := ha
  rw [clearOne_isNavEntry] at hn
  exact clearOne_inactive b hn

theorem spyStep_plain_first (B : Browser) (hB : B.Conforms) (probe : ℚ) (S : Section)
    (pre post : List Anchor) (e : Anchor) (hin : inRange probe S = true)
    (hid : cssPlain S.id = true)
    (hpre : ∀ a ∈ pre, a.href ≠ "#" ++ S.id) (he : e.href = "#" ++ S.id) :
    spyStep B probe (pre ++ e :: post) S
      = .done (clearActive pre ++ { e with active := true } :: clearActive post) := by
  have hc : clearActive (pre ++ e :: post) = clearActive pre ++ clearOne e :: clearActive post := by
    simp [clearActive]
  have hpre1 : ∀ a ∈ clearActive pre, a.href ≠ "#" ++ S.id := by
    intro a ha
    simp only [clearActive, List.mem_map] at ha
    obtain ⟨b, hb, rfl⟩ := ha
    rw [clearOne_href]
    exact hpre b hb
  have hf := firstHref_append ("#" ++ S.id) (clearActive pre) (clearActive post) (clearOne e)
    hpre1 (by rw [clearOne_href, he])
  simp only [spyStep, hin, if_true, hB.1 S.id _ hid, hc, plainMatch, hf, addActive,
    modify_append_length, activate_clearOne]

theorem activeCount_clearActive (as : List Anchor) : activeCount (clearActive as) = 0 := by
  unfold activeCount
  rw [List.countP_eq_zero]
  intro a ha
  by_cases hn : isNavEntry a = true
  · simp [hn, clearActive_inactive as a ha hn]
  · simp [hn]

theorem activeCount_modify_le (as : List Anchor) (i : Nat) :
    activeCount (as.modify activate i) ≤ activeCount as + 1 := by
  induction as generalizing i with
  | nil => simp [activeCount]
  | cons a rest ih =>
    unfold activeCount at ih ⊢
    cases i with
    | zero =>
      simp only [List.modify_zero_cons, List.countP_cons]
      split_ifs <;> omega
    | succ j =>
      simp only [List.modify_succ_cons, List.countP_cons]
      have := ih j
      omega

theorem activeCount_addActive_le (m : Selected) (as : List Anchor) :
    activeCount (addActive m as) ≤ activeCount as + 1 := by
  cases m with
  | anchor i => exact activeCount_modify_le as i
  | invalidSelector => simp [addActive]
  | noMatch => simp [addActive]
  | other => simp [addActive]

theorem activeCount_spyStep (B : Browser) (probe : ℚ) (as : List Anchor) (s : Section)
    (h : activeCount as ≤ 1) : activeCount (spyStep B probe as s).state ≤ 1 := by
  unfold spyStep
  by_cases hin : inRange probe s = true
  · simp only [hin, if_true]
    have h1 := activeCount_addActive_le (B.querySelector s.id (clearActive as)) (clearActive as)
    rw [activeCount_clearActive] at h1
    cases hq : B.querySelector s.id (clearActive as) with
    | invalidSelector => simp [Outcome.state, activeCount_clearActive]
    | noMatch => rw [hq] at h1; simpa [Outcome.state] using h1
    | anchor i => rw [hq] at h1; simpa [Outcome.state] using h1
    | other => rw [hq] at h1; simpa [Outcome.state] using h1
  · simp only [hin]
    simpa [Outcome.state] using h

theorem activeCount_spyLoop (B : Browser) (probe : ℚ) (l : List Section) (as : List Anchor)
    (h : activeCount as ≤ 1) : activeCount (spyLoop B probe l as).state ≤ 1 := by
  induction l generalizing as with
  | nil => simpa [spyLoop, Outcome.state] using h
  | cons s rest ih =>
    have hs := activeCount_spyStep B probe as s h
    simp only [spyLoop]
    cases hq : spyStep B probe as s with
    | done as1 =>
      rw [hq] at hs
      exact ih as1 (by simpa [Outcome.state] using hs)
    | threw as1 =>
      rw [hq] at hs
      simpa [Outcome.state] using hs

/-- C4, refuted as stated, at two inputs with non-overlapping sections.  First: two
nav entries target `#b`, the probe 30 + 120 = 150 is inside B[100,250), and the
second entry, which targets `'#' + B.id`, is not marked active (only the first
one is).  Second: the section in range has the id `quotedId`, a nav entry targets
`'#' + id`, and the call clears the entries, throws on the selector and marks
nothing. -/
theorem scrollSpy_entry_not_marked :
    ([(⟨"a", 0, 100⟩ : Section), ⟨"b", 100, 150⟩].Pairwise (fun s t => ¬ overlap s t) ∧
      inRange (exactOps.add 30 120) ⟨"b", 100, 150⟩ = true ∧
      handleScrollSpy exactOps refBrowser 30 [⟨"a", 0, 100⟩, ⟨"b", 100, 150⟩]
          [⟨"#b", false, false⟩, ⟨"#b", false, false⟩]
        = .done [⟨"#b", false, true⟩, ⟨"#b", false, false⟩]) ∧
    (quoteThenAlnum quotedId = true ∧
      inRange (exactOps.add 0 120) ⟨quotedId, 0, 500⟩ = true ∧
      handleScrollSpy exactOps refBrowser 0 [⟨quotedId, 0, 500⟩]
          [⟨"#" ++ quotedId, false, false⟩, ⟨"#z", false, true⟩]
        = .threw [⟨"#" ++ quotedId, false, false⟩, ⟨"#z", false, false⟩]) := by
  have h1 : inRange (exactOps.add 30 120) ⟨"a", 0, 100⟩ = false := by
    simp [inRange, exactOps]; norm_num
  have h2 : inRange (exactOps.add 30 120) ⟨"b", 100, 150⟩ = true := by
    simp [inRange, exactOps]; norm_num
  have h3 : inRange (exactOps.add 0 120) ⟨quotedId, 0, 500⟩ = true := by
    simp [inRange, exactOps]; norm_num
  refine ⟨⟨by decide, h2, ?_⟩, by decide, h3, ?_⟩
  · simp only [handleScrollSpy, spyLoop, spyStep, h1, h2]
    decide
  · simp only [handleScrollSpy, spyLoop, spyStep, h3]
    decide

/-- C4, amended: for sections with pairwise non-overlapping ranges and every scroll
offset, if the probe `scrollY + 120`, as the script computes it, lies in the
range of a section `S` whose id needs no escape inside a CSS string, then (on a
host whose selector engine conforms) `handleScrollSpy` completes and the first
anchor of the nav list whose `href` is `'#' + S.id` (here `e`, preceded by the
anchors `pre` with other targets) is marked active and every other nav entry
is not, whatever was active before; the anchors keep their order and targets. -/
theorem handleScrollSpy_marks_first (F : FloatOps) (B : Browser) (scrollY : ℚ)
    (sections : List Section) (S : Section) (pre post : List Anchor) (e : Anchor)
    (hB : B.Conforms)
    (hdis : sections.Pairwise (fun s t => ¬ overlap s t))
    (hS : S ∈ sections) (hin : inRange (F.add scrollY 120) S = true)
    (hid : cssPlain S.id = true)
    (hpre : ∀ a ∈ pre, a.href ≠ "#" ++ S.id) (he : e.href = "#" ++ S.id) :
    handleScrollSpy F B scrollY sections (pre ++ e :: post)
        = .done (clearActive pre ++ { e with active := true } :: clearActive post) ∧
      (∀ a ∈ clearActive pre ++ clearActive post, isNavEntry a = true → a.active = false) := by
  refine ⟨?_, fun a ha hn => ?_⟩
  · unfold handleScrollSpy
    rw [spyLoop_single B _ sections S _ hdis hS hin]
    exact spyStep_plain_first B hB _ S pre post e hin hid hpre he
  · rcases List.mem_append.mp ha with h | h
    · exact clearActive_inactive pre a h hn
    · exact clearActive_inactive post a h hn

/-- Witness for `handleScrollSpy_marks_first`, the example of the specification:
sections A[0,100) and B[100,250), probe 150, A's entry active before; afterwards
exactly B's entry is active and A's is cleared. -/
theorem handleScrollSpy_marks_first_witness :
    handleScrollSpy exactOps refBrowser 30 [⟨"a", 0, 100⟩, ⟨"b", 100, 150⟩]
        [⟨"#a", false, true⟩, ⟨"#b", false, false⟩]
      = .done [⟨"#a", false, false⟩, ⟨"#b", false, true⟩] :=
  (handleScrollSpy_marks_first exactOps refBrowser 30 [⟨"a", 0, 100⟩, ⟨"b", 100, 150⟩]
    ⟨"b", 100, 150⟩ [⟨"#a", false, true⟩] [] ⟨"#b", false, false⟩ refBrowser_conforms
    (by decide) (by decide) (by simp [inRange, exactOps]; norm_num) (by decide) (by decide)
    (by decide)).1

/-- C5, refuted as stated: the first anchor of the nav link list carries
`nav-resume-btn` and targets `#a`; no anchor is active; sections a[0,500) and
b[100,600) both contain the probe 0 + 120.  The call marks the resume anchor,
which the clearing for section b leaves alone, and then marks the entry for
`#b`: two anchors of the nav link list are active afterwards. -/
theorem scrollSpy_two_anchors_active :
    activeAnchors [⟨"#a", true, false⟩, ⟨"#b", false, false⟩] = 0 ∧
      handleScrollSpy exactOps refBrowser 0 [⟨"a", 0, 500⟩, ⟨"b", 100, 500⟩]
          [⟨"#a", true, false⟩, ⟨"#b", false, false⟩]
        = .done [⟨"#a", true, true⟩, ⟨"#b", false, true⟩] ∧
      activeAnchors [⟨"#a", true, true⟩, ⟨"#b", false, true⟩] = 2 := by
  have h1 : inRange (exactOps.add 0 120) ⟨"a", 0, 500⟩ = true := by
    simp [inRange, exactOps]; norm_num
  have h2 : inRange (exactOps.add 0 120) ⟨"b", 100, 500⟩ = true := by
    simp [inRange, exactOps]; norm_num
  refine ⟨by decide, ?_, by decide⟩
  simp only [handleScrollSpy, spyLoop, spyStep, h1, h2]
  decide

/-- C5, amended: at most one anchor of `allNavAnchors` (the anchors of the nav link
list without `nav-resume-btn`) is active: if that holds before a call of
`handleScrollSpy` it holds after it, whether the call completes or throws, for
every section layout (overlapping ranges,
sections without a matching nav entry and ids of any form included), every
selector engine and every scroll offset; and when no section's range contains
the probe `scrollY + 120`, as the script computes it, the call completes and
leaves every anchor exactly as it was. -/
theorem handleScrollSpy_at_most_one_active (F : FloatOps) (B : Browser) (scrollY : ℚ)
    (sections : List Section) (as : List Anchor) (h : activeCount as ≤ 1) :
    activeCount (handleScrollSpy F B scrollY sections as).state ≤ 1 ∧
      ((∀ s ∈ sections, inRange (F.add scrollY 120) s = false) →
        handleScrollSpy F B scrollY sections as = .done as) :=
  ⟨activeCount_spyLoop B _ sections as h,
    fun hno => spyLoop_of_not_inRange B _ sections as hno⟩

/-- Witness for `handleScrollSpy_at_most_one_active`: two overlapping sections both
contain the probe, the second has no nav entry; at most one nav entry is active
afterwards. -/
theorem handleScrollSpy_at_most_one_active_witness :
    activeCount (handleScrollSpy exactOps refBrowser 0 [⟨"a", 0, 500⟩, ⟨"zz", 100, 500⟩]
        [⟨"#a", false, false⟩, ⟨"#b", false, true⟩]).state ≤ 1 :=
  (handleScrollSpy_at_most_one_active exactOps refBrowser 0 [⟨"a", 0, 500⟩, ⟨"zz", 100, 500⟩]
    [⟨"#a", false, false⟩, ⟨"#b", false, true⟩] (by decide)).1

/-! ## Theorems: coalesced scroll listener -/

theorem spyStep_plain_done (B : Browser) (hB : B.Conforms) (probe : ℚ) (as : List Anchor)
    (s : Section) (hid : cssPlain s.id = true) : ∃ as1, spyStep B probe as s = .done as1 := by
  unfold spyStep
  by_cases hin : inRange probe s = true
  · simp only [hin, if_true, hB.1 s.id _ hid, plainMatch]
    cases firstHref ("#" ++ s.id) (clearActive as) with
    | none => exact ⟨_, rfl⟩
    | some i => exact ⟨_, rfl⟩
  · simp only [hin]
    exact ⟨_, rfl⟩

theorem spyLoop_plain_done (B : Browser) (hB : B.Conforms) (probe : ℚ) (l : List Section)
    (as : List Anchor) (hid : ∀ s ∈ l, cssPlain s.id = true) :
    ∃ as1, spyLoop B probe l as = .done as1 := by
  induction l generalizing as with
  | nil => exact ⟨as, rfl⟩
  | cons s rest ih =>
    obtain ⟨as1, h1⟩ := spyStep_plain_done B hB probe as s (hid s (List.mem_cons_self _ _))
    obtain ⟨as2, h2⟩ := ih as1 (fun t ht => hid t (List.mem_cons_of_mem _ ht))
    exact ⟨as2, by simp only [spyLoop, h1, h2]⟩

theorem scrollStep_frame_idle (F : FloatOps) (B : Browser) (sections : List Section)
    (t : ScrollState) (hp : t.pending = 0) : scrollStep F B sections t .frame = t := by
  cases t
  simp_all [scrollStep]

theorem scrollStep_frame_done (F : FloatOps) (B : Browser) (sections : List Section)
    (t : ScrollState) (as : List Anchor) (hp : t.pending = 1)
    (hd : handleScrollSpy F B t.scrollY sections t.anchors = .done as) :
    scrollStep F B sections t .frame =
      { t with navbarScrolled := handleNavScroll t.scrollY, anchors := as,
               ticking := false, pending := 0 } := by
  simp [scrollStep, hp, frameCallback, hd, Outcome.state]

theorem scrollStep_frame_threw (F : FloatOps) (B : Browser) (sections : List Section)
    (t : ScrollState) (as : List Anchor) (hp : t.pending = 1)
    (hd : handleScrollSpy F B t.scrollY sections t.anchors = .threw as) :
    scrollStep F B sections t .frame =
      { t with navbarScrolled := handleNavScroll t.scrollY, anchors := as, pending := 0 } := by
  simp [scrollStep, hp, frameCallback, hd, Outcome.state]

theorem scrollStep_scroll_ticking (F : FloatOps) (B : Browser) (sections : List Section)
    (t : ScrollState) (y : ℚ) (ht : t.ticking = true) :
    scrollStep F B sections t (.scroll y) = { t with scrollY := y } := by
  simp [scrollStep, scrollListener, ht]

theorem guard_scrollStep (F : FloatOps) (B : Browser) (sections : List Section)
    (s : ScrollState) (e : ScrollEvent) (h : Coalesced s ∨ Stuck s) :
    Coalesced (scrollStep F B sections s e) ∨ Stuck (scrollStep F B sections s e) := by
  cases e with
  | scroll y =>
    rcases h with (⟨ht, hp⟩ | ⟨ht, hp⟩) | ⟨ht, hp⟩
    · left; left; simp [scrollStep, scrollListener, ht, hp]
    · left; left; simp [scrollStep, scrollListener, ht, hp]
    · right; rw [scrollStep_scroll_ticking F B sections s y ht]; exact ⟨ht, hp⟩
  | frame =>
    rcases h with (⟨ht, hp⟩ | ⟨ht, hp⟩) | ⟨ht, hp⟩
    · cases hd : handleScrollSpy F B s.scrollY sections s.anchors with
      | done as =>
        rw [scrollStep_frame_done F B sections s as hp hd]
        left; right; exact ⟨rfl, rfl⟩
      | threw as =>
        rw [scrollStep_frame_threw F B sections s as hp hd]
        right; exact ⟨ht, rfl⟩
    · rw [scrollStep_frame_idle F B sections s hp]; left; right; exact ⟨ht, hp⟩
    · rw [scrollStep_frame_idle F B sections s hp]; right; exact ⟨ht, hp⟩

theorem guard_scrollRun (F : FloatOps) (B : Browser) (sections : List Section)
    (s : ScrollState) (evs : List ScrollEvent) (h : Coalesced s ∨ Stuck s) :
    Coalesced (scrollRun F B sections s evs) ∨ Stuck (scrollRun F B sections s evs) := by
  unfold scrollRun
  induction evs generalizing s with
  | nil => exact h
  | cons e rest ih =>
    rw [List.foldl_cons]
    exact ih _ (guard_scrollStep F B sections s e h)

theorem stuck_scrollStep (F : FloatOps) (B : Browser) (sections : List Section)
    (s : ScrollState) (e : ScrollEvent) (h : Stuck s) : Stuck (scrollStep F B sections s e) := by
  cases e with
  | scroll y => rw [scrollStep_scroll_ticking F B sections s y h.1]; exact h
  | frame => rw [scrollStep_frame_idle F B sections s h.2]; exact h

theorem stuck_scrollRun (F : FloatOps) (B : Browser) (sections : List Section)
    (s : ScrollState) (evs : List ScrollEvent) (h : Stuck s) :
    Stuck (scrollRun F B sections s evs) := by
  unfold scrollRun
  induction evs generalizing s with
  | nil => exact h
  | cons e rest ih =>
    rw [List.foldl_cons]
    exact ih _ (stuck_scrollStep F B sections s e h)

theorem coalesced_scrollStep (F : FloatOps) (B : Browser) (hB : B.Conforms)
    (sections : List Section) (hid : ∀ t ∈ sections, cssPlain t.id = true)
    (s : ScrollState) (e : ScrollEvent) (h : Coalesced s) :
    Coalesced (scrollStep F B sections s e) := by
  cases e with
  | scroll y =>
    rcases h with ⟨ht, hp⟩ | ⟨ht, hp⟩
    · left; simp [scrollStep, scrollListener, ht, hp]
    · left; simp [scrollStep, scrollListener, ht, hp]
  | frame =>
    rcases h with ⟨ht, hp⟩ | ⟨ht, hp⟩
    · obtain ⟨as, hd⟩ := spyLoop_plain_done B hB (F.add s.scrollY 120) sections s.anchors hid
      rw [scrollStep_frame_done F B sections s as hp hd]
      right; exact ⟨rfl, rfl⟩
    · rw [scrollStep_frame_idle F B sections s hp]; right; exact ⟨ht, hp⟩

theorem coalesced_scrollRun (F : FloatOps) (B : Browser) (hB : B.Conforms)
    (sections : List Section) (hid : ∀ t ∈ sections, cssPlain t.id = true)
    (s : ScrollState) (evs : List ScrollEvent) (h : Coalesced s) :
    Coalesced (scrollRun F B sections s evs) := by
  unfold scrollRun
  induction evs generalizing s with
  | nil => exact h
  | cons e rest ih =>
    rw [List.foldl_cons]
    exact ih _ (coalesced_scrollStep F B hB sections hid s e h)

theorem coalesced_step_or_threw (F : FloatOps) (B : Browser) (sections : List Section)
    (s : ScrollState) (e : ScrollEvent) (h : Coalesced s) :
    Coalesced (scrollStep F B sections s e) ∨
      ∃ as, s.pending = 1 ∧ handleScrollSpy F B s.scrollY sections s.anchors = .threw as ∧
        Stuck (scrollStep F B sections s e) := by
  cases e with
  | scroll y =>
    rcases h with ⟨ht, hp⟩ | ⟨ht, hp⟩
    · left; left; simp [scrollStep, scrollListener, ht, hp]
    · left; left; simp [scrollStep, scrollListener, ht, hp]
  | frame =>
    rcases h with ⟨ht, hp⟩ | ⟨ht, hp⟩
    · cases hd : handleScrollSpy F B s.scrollY sections s.anchors with
      | done as =>
        rw [scrollStep_frame_done F B sections s as hp hd]
        left; right; exact ⟨rfl, rfl⟩
      | threw as =>
        right
        refine ⟨as, hp, rfl, ?_⟩
        rw [scrollStep_frame_threw F B sections s as hp hd]
        exact ⟨ht, rfl⟩
    · rw [scrollStep_frame_idle F B sections s hp]; left; right; exact ⟨ht, hp⟩

/-- C10, refuted as stated: with sections top[0,500) and a second one [500,1000)
whose id is `quotedId`, the page is scrolled to 600 and the frame fires; the callback
throws on the selector before `ticking = false`, so `ticking` is true with no
callback queued, and a later scroll and frame change neither. -/
theorem scroll_guard_stuck_after_throw :
    quoteThenAlnum quotedId = true ∧
    (scrollRun exactOps refBrowser [⟨"top", 0, 500⟩, ⟨quotedId, 500, 500⟩]
      (scrollInit exactOps refBrowser [⟨"top", 0, 500⟩, ⟨quotedId, 500, 500⟩] 0
        [⟨"#top", false, false⟩])
      [.scroll 600, .frame]).ticking = true ∧
    (scrollRun exactOps refBrowser [⟨"top", 0, 500⟩, ⟨quotedId, 500, 500⟩]
      (scrollInit exactOps refBrowser [⟨"top", 0, 500⟩, ⟨quotedId, 500, 500⟩] 0
        [⟨"#top", false, false⟩])
      [.scroll 600, .frame]).pending = 0 ∧
    (scrollRun exactOps refBrowser [⟨"top", 0, 500⟩, ⟨quotedId, 500, 500⟩]
      (scrollInit exactOps refBrowser [⟨"top", 0, 500⟩, ⟨quotedId, 500, 500⟩] 0
        [⟨"#top", false, false⟩])
      [.scroll 600, .frame, .scroll 0, .frame]).ticking = true ∧
    (scrollRun exactOps refBrowser [⟨"top", 0, 500⟩, ⟨quotedId, 500, 500⟩]
      (scrollInit exactOps refBrowser [⟨"top", 0, 500⟩, ⟨quotedId, 500, 500⟩] 0
        [⟨"#top", false, false⟩])
      [.scroll 600, .frame, .scroll 0, .frame]).pending = 0 := by
  have h1 : inRange (exactOps.add 600 120) ⟨"top", 0, 500⟩ = false := by
    simp [inRange, exactOps]; norm_num
  have h2 : inRange (exactOps.add 600 120) ⟨quotedId, 500, 500⟩ = true := by
    simp [inRange, exactOps]; norm_num
  have hq : ∀ as, refBrowser.querySelector quotedId as = .invalidSelector :=
    fun as => refBrowser_conforms.2 quotedId as (by decide)
  have hthrow : ∀ as, ∃ as1, handleScrollSpy exactOps refBrowser 600
      [⟨"top", 0, 500⟩, ⟨quotedId, 500, 500⟩] as = .threw as1 := by
    intro as
    simp only [handleScrollSpy, spyLoop, spyStep, h1, h2, hq]
    exact ⟨_, rfl⟩
  generalize hs0 : scrollInit exactOps refBrowser [⟨"top", 0, 500⟩, ⟨quotedId, 500, 500⟩] 0
    [⟨"#top", false, false⟩] = s0
  have ht0 : s0.ticking = false := by rw [← hs0]; rfl
  have hp0 : s0.pending = 0 := by rw [← hs0]; rfl
  have hs1 : ∃ s1, scrollStep exactOps refBrowser [⟨"top", 0, 500⟩, ⟨quotedId, 500, 500⟩] s0
      (.scroll 600) = s1 ∧ s1.ticking = true ∧ s1.pending = 1 ∧ s1.scrollY = 600 :=
    ⟨_, rfl, by simp [scrollStep, scrollListener, ht0], by simp [scrollStep, scrollListener, ht0, hp0],
      by simp [scrollStep, scrollListener, ht0]⟩
  obtain ⟨s1, e1, t1, p1, y1⟩ := hs1
  obtain ⟨as1, hth⟩ := hthrow s1.anchors
  rw [← y1] at hth
  have e2 := scrollStep_frame_threw exactOps refBrowser _ s1 as1 p1 hth
  have hst : Stuck (scrollStep exactOps refBrowser [⟨"top", 0, 500⟩, ⟨quotedId, 500, 500⟩] s1
      .frame) := by
    rw [e2]; exact ⟨t1, rfl⟩
  have hst2 := stuck_scrollRun exactOps refBrowser [⟨"top", 0, 500⟩, ⟨quotedId, 500, 500⟩] _
    [.scroll 0, .frame] hst
  refine ⟨by decide, ?_, ?_, ?_, ?_⟩
  · simp only [scrollRun, List.foldl_cons, List.foldl_nil, e1]; exact hst.1
  · simp only [scrollRun, List.foldl_cons, List.foldl_nil, e1]; exact hst.2
  · simp only [scrollRun, List.foldl_cons, List.foldl_nil, e1] at hst2 ⊢; exact hst2.1
  · simp only [scrollRun, List.foldl_cons, List.foldl_nil, e1] at hst2 ⊢; exact hst2.2

/-- C10, amended: in every state reached from the loaded page by scroll events and
frame firings, at most one scroll frame callback is queued, and either `ticking`
is true with exactly one queued or false with none queued, or `ticking` is true
with none queued, which then lasts for good and is entered only by a frame whose
callback threw.
While `ticking` is true the scroll listener changes nothing (a scroll event only
moves the offset); while it is false the listener queues exactly one callback
and sets `ticking`.  A frame firing with nothing queued changes nothing; with a
queued callback it runs `handleNavScroll` and `handleScrollSpy` once on the
current offset and, if `handleScrollSpy` completes, clears `ticking` and the
queue; if `handleScrollSpy` throws, `ticking` stays true and the queue is empty.
On a conforming host with section ids needing no CSS escape the callback always
completes, and `ticking` is true exactly when one callback is queued. -/
theorem scroll_updates_coalesced (F : FloatOps) (B : Browser) (sections : List Section)
    (y0 : ℚ) (as0 : List Anchor) (evs : List ScrollEvent) :
    let s := scrollRun F B sections (scrollInit F B sections y0 as0) evs
    (s.pending ≤ 1 ∧ (Coalesced s ∨ Stuck s) ∧
      (Coalesced s → ∀ e, Coalesced (scrollStep F B sections s e) ∨
        ∃ as, s.pending = 1 ∧ handleScrollSpy F B s.scrollY sections s.anchors = .threw as ∧
          Stuck (scrollStep F B sections s e))) ∧
    (s.ticking = true → scrollListener s = s ∧
      ∀ y, scrollStep F B sections s (.scroll y) = { s with scrollY := y }) ∧
    (s.ticking = false → scrollListener s = { s with ticking := true, pending := 1 }) ∧
    (s.pending = 0 → scrollStep F B sections s .frame = s) ∧
    (∀ as, s.pending = 1 → handleScrollSpy F B s.scrollY sections s.anchors = .done as →
      scrollStep F B sections s .frame =
        { s with navbarScrolled := handleNavScroll s.scrollY, anchors := as,
                 ticking := false, pending := 0 }) ∧
    (∀ as, s.pending = 1 → handleScrollSpy F B s.scrollY sections s.anchors = .threw as →
      scrollStep F B sections s .frame =
        { s with navbarScrolled := handleNavScroll s.scrollY, anchors := as, pending := 0 } ∧
      Stuck (scrollStep F B sections s .frame)) ∧
    (Stuck s → ∀ later, Stuck (scrollRun F B sections s later)) ∧
    (B.Conforms → (∀ t ∈ sections, cssPlain t.id = true) →
      (s.ticking = true ↔ s.pending = 1) ∧
      ∃ as, handleScrollSpy F B s.scrollY sections s.anchors = .done as) := by
  intro s
  have h0 : Coalesced (scrollInit F B sections y0 as0) := Or.inr ⟨rfl, rfl⟩
  have hinv : Coalesced s ∨ Stuck s := guard_scrollRun F B sections _ evs (Or.inl h0)
  refine ⟨⟨?_, hinv, fun hc e => coalesced_step_or_threw F B sections s e hc⟩,
    ?_, ?_, ?_, ?_, ?_, ?_, ?_⟩
  · rcases hinv with (⟨-, hp⟩ | ⟨-, hp⟩) | ⟨-, hp⟩ <;> omega
  · intro ht
    exact ⟨by simp [scrollListener, ht], fun y => scrollStep_scroll_ticking F B sections s y ht⟩
  · intro ht
    rcases hinv with (⟨ht1, -⟩ | ⟨-, hp⟩) | ⟨ht1, -⟩
    · rw [ht] at ht1; exact absurd ht1 (by decide)
    · simp [scrollListener, ht, hp]
    · rw [ht] at ht1; exact absurd ht1 (by decide)
  · exact fun hp => scrollStep_frame_idle F B sections s hp
  · exact fun as hp hd => scrollStep_frame_done F B sections s as hp hd
  · intro as hp hd
    have e := scrollStep_frame_threw F B sections s as hp hd
    refine ⟨e, ?_⟩
    rw [e]
    rcases hinv with (⟨ht, -⟩ | ⟨-, hp0⟩) | ⟨-, hp0⟩
    · exact ⟨ht, rfl⟩
    · omega
    · omega
  · exact fun hst later => stuck_scrollRun F B sections s later hst
  · intro hB hid
    have hc : Coalesced s := coalesced_scrollRun F B hB sections hid _ evs h0
    refine ⟨?_, spyLoop_plain_done B hB _ sections s.anchors hid⟩
    rcases hc with ⟨ht, hp⟩ | ⟨ht, hp⟩ <;> simp [ht, hp]

/-- Witness for `scroll_updates_coalesced`: on a page with two sections of plain
ids, three scroll events in a row queue one callback. -/
theorem scroll_updates_coalesced_witness :
    (scrollRun exactOps refBrowser [⟨"top", 0, 500⟩, ⟨"about", 500, 500⟩]
      (scrollInit exactOps refBrowser [⟨"top", 0, 500⟩, ⟨"about", 500, 500⟩] 0 [])
      [.scroll 10, .scroll 20, .scroll 30]).pending = 1 :=
  ((scroll_updates_coalesced exactOps refBrowser [⟨"top", 0, 500⟩, ⟨"about", 500, 500⟩] 0 []
    [.scroll 10, .scroll 20, .scroll 30]).2.2.2.2.2.2.2 refBrowser_conforms (by decide)).1.mp rfl

/-! ## Theorems: hamburger menu -/

/-- C8: `closeMenu` is idempotent, its result always has the hamburger not active,
the nav panel not open, the overlay not active and the body scroll lock cleared,
and on an already closed menu it changes none of the four. -/
theorem closeMenu_idempotent (s : Menu) :
    closeMenu (closeMenu s) = closeMenu s ∧
    (closeMenu s).hamburgerActive = false ∧ (closeMenu s).navOpen = false ∧
    (closeMenu s).overlayActive = false ∧ (closeMenu s).bodyOverflow = "" ∧
    (s.isClosed → closeMenu s = s) := by
  refine ⟨rfl, rfl, rfl, rfl, rfl, ?_⟩
  rintro ⟨h1, h2, h3, h4⟩
  cases s
  simp_all [closeMenu]

/-- Witness for `closeMenu_idempotent`: the menu closed by a second click on the
hamburger is left unchanged by `closeMenu`. -/
theorem closeMenu_idempotent_witness :
    closeMenu (hamburgerClick (hamburgerClick ⟨false, false, false, ""⟩))
      = hamburgerClick (hamburgerClick ⟨false, false, false, ""⟩) :=
  (closeMenu_idempotent (hamburgerClick (hamburgerClick ⟨false, false, false, ""⟩))).2.2.2.2.2
    ⟨rfl, rfl, rfl, rfl⟩

/-! ## Theorems: reveal on scroll -/

theorem onEntry_active (b : Bool) (el : RevealEl) (h : el.active = true) :
    (onEntry b el).active = true := by
  cases b <;> cases hs : el.skillCard <;> simp [onEntry, hs, h]

theorem onTimer_active (el : RevealEl) : (onTimer el).active = el.active := by
  unfold onTimer; split_ifs <;> rfl

theorem onTimer_observed (el : RevealEl) : (onTimer el).observed = el.observed := by
  unfold onTimer; split_ifs <;> rfl

theorem onEntry_observed (b : Bool) (el : RevealEl) (h : el.observed = false) :
    (onEntry b el).observed = false := by
  cases b <;> cases hs : el.skillCard <;> simp [onEntry, hs, h]

theorem onEntry_activates (b : Bool) (el : RevealEl) (h0 : el.active = false)
    (h1 : (onEntry b el).active = true) : b = true ∧ (onEntry b el).observed = false := by
  cases b with
  | false => simp [onEntry, h0] at h1
  | true => refine ⟨rfl, ?_⟩; cases hs : el.skillCard <;> simp [onEntry, hs]

theorem isActive_step_mono (els : List RevealEl) (e : RevealEvent) (i : Nat)
    (h : isActive els i = true) : isActive (revealStep els e) i = true := by
  unfold isActive at h ⊢
  cases e with
  | entry j b =>
    simp only [revealStep, List.getElem?_modify]
    cases hg : els[i]? with
    | none => simp [hg] at h
    | some el =>
      simp only [hg] at h
      by_cases hj : j = i <;> simp [hj, h, onEntry_active]
  | timer j =>
    simp only [revealStep, List.getElem?_modify]
    cases hg : els[i]? with
    | none => simp [hg] at h
    | some el =>
      simp only [hg] at h
      by_cases hj : j = i <;> simp [hj, h, onTimer_active]

theorem isObserved_step_mono (els : List RevealEl) (e : RevealEvent) (i : Nat)
    (h : isObserved els i = false) : isObserved (revealStep els e) i = false := by
  unfold isObserved at h ⊢
  cases e with
  | entry j b =>
    simp only [revealStep, List.getElem?_modify]
    cases hg : els[i]? with
    | none => simp
    | some el =>
      simp only [hg] at h
      by_cases hj : j = i <;> simp [hj, h, onEntry_observed]
  | timer j =>
    simp only [revealStep, List.getElem?_modify]
    cases hg : els[i]? with
    | none => simp
    | some el =>
      simp only [hg] at h
      by_cases hj : j = i <;> simp [hj, h, onTimer_observed]

theorem isActive_step_new (els : List RevealEl) (e : RevealEvent) (i : Nat)
    (h0 : isActive els i = false) (h1 : isActive (revealStep els e) i = true) :
    e = .entry i true ∧ isObserved (revealStep els e) i = false := by
  unfold isActive at h0 h1
  unfold isObserved
  cases e with
  | entry j b =>
    simp only [revealStep, List.getElem?_modify] at h1 ⊢
    cases hg : els[i]? with
    | none => simp [hg] at h1
    | some el =>
      simp only [hg] at h0 h1 ⊢
      by_cases hj : j = i
      · subst hj
        simp only [if_true, Option.map_eq_map, Option.map_some'] at h1 ⊢
        obtain ⟨hb, ho⟩ := onEntry_activates b el h0 h1
        exact ⟨by rw [hb], ho⟩
      · simp [hj, h0] at h1
  | timer j =>
    simp only [revealStep, List.getElem?_modify] at h1
    cases hg : els[i]? with
    | none => simp [hg] at h1
    | some el =>
      simp only [hg] at h0 h1
      by_cases hj : j = i <;> simp [hj, h0, onTimer_active] at h1

theorem isActive_run_mono (els : List RevealEl) (evs : List RevealEvent) (i : Nat)
    (h : isActive els i = true) : isActive (revealRun els evs) i = true := by
  unfold revealRun
  induction evs generalizing els with
  | nil => exact h
  | cons e rest ih => exact ih _ (isActive_step_mono els e i h)

theorem isObserved_run_mono (els : List RevealEl) (evs : List RevealEvent) (i : Nat)
    (h : isObserved els i = false) : isObserved (revealRun els evs) i = false := by
  unfold revealRun
  induction evs generalizing els with
  | nil => exact h
  | cons e rest ih => exact ih _ (isObserved_step_mono els e i h)

theorem activations_cons_trace (i : Nat) (s t : List RevealEl) (evs : List RevealEvent) :
    activations i (s :: revealTrace t evs)
      = (if !isActive s i && isActive t i then 1 else 0) + activations i (revealTrace t evs) := by
  cases evs <;> simp [revealTrace, activations]

theorem deactivations_cons_trace (i : Nat) (s t : List RevealEl) (evs : List RevealEvent) :
    deactivations i (s :: revealTrace t evs)
      = (if isActive s i && !isActive t i then 1 else 0) + deactivations i (revealTrace t evs) := by
  cases evs <;> simp [revealTrace, deactivations]

theorem activations_of_active (els : List RevealEl) (evs : List RevealEvent) (i : Nat)
    (h : isActive els i = true) : activations i (revealTrace els evs) = 0 := by
  induction evs generalizing els with
  | nil => simp [revealTrace, activations]
  | cons e rest ih =>
    rw [revealTrace, activations_cons_trace, ih _ (isActive_step_mono els e i h)]
    simp [h]

theorem deactivations_zero (els : List RevealEl) (evs : List RevealEvent) (i : Nat) :
    deactivations i (revealTrace els evs) = 0 := by
  induction evs generalizing els with
  | nil => simp [revealTrace, deactivations]
  | cons e rest ih =>
    rw [revealTrace, deactivations_cons_trace, ih]
    by_cases h : isActive els i = true
    · simp [h, isActive_step_mono els e i h]
    · simp [h]

theorem activations_le_one (els : List RevealEl) (evs : List RevealEvent) (i : Nat) :
    activations i (revealTrace els evs) ≤ 1 := by
  induction evs generalizing els with
  | nil => simp [revealTrace, activations]
  | cons e rest ih =>
    rw [revealTrace, activations_cons_trace]
    by_cases h : isActive (revealStep els e) i = true
    · rw [activations_of_active _ rest i h]
      split_ifs <;> omega
    · have := ih (revealStep els e)
      simp [h]
      exact this

theorem activations_eq_one (els : List RevealEl) (evs : List RevealEvent) (i : Nat)
    (h0 : isActive els i = false) (h1 : isActive (revealRun els evs) i = true) :
    activations i (revealTrace els evs) = 1 := by
  induction evs generalizing els with
  | nil => simp [revealRun, h0] at h1
  | cons e rest ih =>
    rw [revealTrace, activations_cons_trace]
    by_cases h : isActive (revealStep els e) i = true
    · rw [activations_of_active _ rest i h]
      simp [h0, h]
    · have h' : isActive (revealStep els e) i = false := by simpa using h
      have := ih (revealStep els e) h' h1
      simp [h', this]

theorem revealTrace_getLast (els : List RevealEl) (evs : List RevealEvent) :
    (revealTrace els evs).getLast? = some (revealRun els evs) := by
  induction evs generalizing els with
  | nil => rfl
  | cons e rest ih =>
    have h := ih (revealStep els e)
    cases hr : revealTrace (revealStep els e) rest with
    | nil => rw [hr] at h; simp at h
    | cons t ts =>
      rw [hr] at h
      rw [revealTrace, hr, List.getLast?_cons_cons, h]
      rfl

/-- C6: along every sequence of observer entries (intersecting or not, for any
targets, in any number) and timer firings, from any state of the reveal targets,
a target goes from not active to active at most once and never from active to
not active; it does so exactly once when it starts without the marker and ends
with it; and the only step that gives a target the marker is an intersecting
entry for it, after which the target is no longer observed and stays active
for good, with no further activation. -/
theorem reveal_activated_once (els : List RevealEl) (evs : List RevealEvent) (i : Nat) :
    (revealTrace els evs).getLast? = some (revealRun els evs) ∧
    activations i (revealTrace els evs) ≤ 1 ∧
    deactivations i (revealTrace els evs) = 0 ∧
    (isActive els i = false → isActive (revealRun els evs) i = true →
      activations i (revealTrace els evs) = 1) ∧
    (∀ e, isActive els i = false → isActive (revealStep els e) i = true →
      e = .entry i true ∧
      ∀ later, isObserved (revealRun (revealStep els e) later) i = false ∧
        isActive (revealRun (revealStep els e) later) i = true ∧
        activations i (revealTrace (revealStep els e) later) = 0) := by
  refine ⟨revealTrace_getLast els evs, activations_le_one els evs i, deactivations_zero els evs i,
    activations_eq_one els evs i, fun e h0 h1 => ?_⟩
  obtain ⟨he, ho⟩ := isActive_step_new els e i h0 h1
  exact ⟨he, fun later => ⟨isObserved_run_mono _ later i ho, isActive_run_mono _ later i h1,
    activations_of_active _ later i h1⟩⟩

/-- Witness for `reveal_activated_once`: an observed skill card enters the
threshold, leaves it and enters it again; it is activated exactly once. -/
theorem reveal_activated_once_witness :
    activations 0 (revealTrace (initReveal true [⟨false, true, false, false, 0⟩])
      [.entry 0 true, .entry 0 false, .entry 0 true]) = 1 :=
  (reveal_activated_once (initReveal true [⟨false, true, false, false, 0⟩])
    [.entry 0 true, .entry 0 false, .entry 0 true] 0).2.2.2.1 (by decide) (by decide)

/-! ## Theorems: particle canvas -/

theorem wrap_spec (size : Nat) (v : ℚ) :
    ((size : ℚ) < v → wrap size v = 0) ∧ (v < 0 → wrap size v = size) ∧
    (0 ≤ v → v ≤ size → wrap size v = v) ∧ 0 ≤ wrap size v ∧ wrap size v ≤ size := by
  have hs : (0 : ℚ) ≤ size := Nat.cast_nonneg _
  refine ⟨fun h => ?_, fun h => ?_, fun h1 h2 => ?_, ?_, ?_⟩ <;>
    simp only [wrap] <;> split_ifs <;> first | rfl | linarith

/-- C7: in one frame tick, for every particle and every canvas size, with `rx` and
`ry` the coordinates after integration: a result greater than the width is set
to 0, a result less than 0 is set to the width, any other result is kept, and
likewise for `y` with the height; a particle at `width + 0.01` after integration
ends the tick at 0; after the tick `0 ≤ x ≤ width` and `0 ≤ y ≤ height`. -/
theorem updateParticle_wraps (F : FloatOps) (width height : Nat) (p : Particle) :
    let q := updateParticle F width height p
    let rx := F.add p.x p.dx
    let ry := F.add p.y p.dy
    ((width : ℚ) < rx → q.x = 0) ∧ (rx < 0 → q.x = width) ∧
    (0 ≤ rx → rx ≤ width → q.x = rx) ∧
    ((height : ℚ) < ry → q.y = 0) ∧ (ry < 0 → q.y = height) ∧
    (0 ≤ ry → ry ≤ height → q.y = ry) ∧
    (rx = width + 1 / 100 → q.x = 0) ∧
    (0 ≤ q.x ∧ q.x ≤ width ∧ 0 ≤ q.y ∧ q.y ≤ height) ∧
    (q.r = p.r ∧ q.dx = p.dx ∧ q.dy = p.dy ∧ q.o = p.o) ∧
    (∀ ps : List Particle, ∀ t ∈ updateParticles F width height ps,
      0 ≤ t.x ∧ t.x ≤ width ∧ 0 ≤ t.y ∧ t.y ≤ height) := by
  intro q rx ry
  have hx : q.x = wrap width rx := rfl
  have hy : q.y = wrap height ry := rfl
  obtain ⟨x1, x2, x3, x4, x5⟩ := wrap_spec width rx
  obtain ⟨y1, y2, y3, y4, y5⟩ := wrap_spec height ry
  have hw : (0 : ℚ) ≤ width := Nat.cast_nonneg _
  rw [hx, hy]
  refine ⟨x1, x2, x3, y1, y2, y3, fun h => x1 (by linarith), ⟨x4, x5, y4, y5⟩,
    ⟨rfl, rfl, rfl, rfl⟩, fun ps t ht => ?_⟩
  simp only [updateParticles, List.mem_map] at ht
  obtain ⟨u, -, rfl⟩ := ht
  have ux : (updateParticle F width height u).x = wrap width (F.add u.x u.dx) := rfl
  have uy : (updateParticle F width height u).y = wrap height (F.add u.y u.dy) := rfl
  rw [ux, uy]
  exact ⟨(wrap_spec width _).2.2.2.1, (wrap_spec width _).2.2.2.2,
    (wrap_spec height _).2.2.2.1, (wrap_spec height _).2.2.2.2⟩

/-- Witness for `updateParticle_wraps`: on a canvas 800 wide, a particle at 799.96
moving by 0.05 is at 800.01 after integration and ends the tick at 0. -/
theorem updateParticle_wraps_witness :
    (updateParticle exactOps 800 600 ⟨79996 / 100, 10, 1, 5 / 100, 0, 1 / 10⟩).x = 0 :=
  (updateParticle_wraps exactOps 800 600 ⟨79996 / 100, 10, 1, 5 / 100, 0, 1 / 10⟩).2.2.2.2.2.2.1
    (by simp [exactOps]; norm_num)

theorem innerPairs_length (n i : Nat) : (innerPairs n i).length = n - (i + 1) := by
  simp [innerPairs]

theorem sum_inner_lengths (n k : Nat) (hk : k ≤ n) :
    ((List.range k).map (fun i => n - (i + 1))).sum * 2 + k * (k + 1) = 2 * k * n := by
  induction k with
  | zero => simp
  | succ k ih =>
    have ih1 := ih (by omega)
    obtain ⟨d, rfl⟩ : ∃ d, n = k + 1 + d := ⟨n - (k + 1), by omega⟩
    rw [List.range_succ, List.map_append, List.sum_append]
    simp only [List.map_cons, List.map_nil, List.sum_cons, List.sum_nil]
    have hd : k + 1 + d - (k + 1) = d := by omega
    rw [hd]
    nlinarith [ih1]

theorem examinedPairs_length (n : Nat) : (examinedPairs n).length = n * (n - 1) / 2 := by
  unfold examinedPairs
  rw [List.length_flatMap]
  have hfun : (List.length ∘ innerPairs n) = fun i => n - (i + 1) := by
    funext i; simp [innerPairs_length]
  have h := sum_inner_lengths n n le_rfl
  rw [hfun]
  cases n with
  | zero => simp
  | succ m =>
    have e : (m + 1) * (m + 1 - 1) = (m + 1) * m := by simp
    rw [e]
    apply (Nat.div_eq_of_eq_mul_left (by decide) _).symm
    nlinarith [h]

theorem mem_examinedPairs (n i j : Nat) : (i, j) ∈ examinedPairs n ↔ i < j ∧ j < n := by
  simp only [examinedPairs, innerPairs, List.mem_flatMap, List.mem_range, List.mem_map,
    List.mem_range'_1, Prod.mk.injEq]
  constructor
  · rintro ⟨a, ha, b, ⟨hb1, hb2⟩, rfl, rfl⟩
    omega
  · rintro ⟨h1, h2⟩
    exact ⟨i, by omega, j, ⟨by omega, by omega⟩, rfl, rfl⟩

theorem examinedPairs_nodup (n : Nat) : (examinedPairs n).Nodup := by
  unfold examinedPairs
  rw [List.nodup_flatMap]
  refine ⟨fun i _ => ?_, ?_⟩
  · unfold innerPairs
    refine (List.nodup_range' _ _).map ?_
    intro a b h
    simpa using h
  · refine (List.nodup_range n).pairwise_of_forall_ne ?_
    intro a _ b _ hab
    rw [Function.onFun, List.disjoint_left]
    intro x hx hx2
    simp only [innerPairs, List.mem_map] at hx hx2
    obtain ⟨u, -, rfl⟩ := hx
    obtain ⟨v, -, hv⟩ := hx2
    simp only [Prod.mk.injEq] at hv
    exact hab hv.1.symm

theorem createLoop_length (F : FloatOps) (rand : Nat → ℚ) (width height count : Nat)
    (i : Nat) (particles : List Particle) :
    (createLoop F rand width height count i particles).length
      = particles.length + (count - i) := by
  generalize hd : count - i = d
  induction d generalizing i particles with
  | zero =>
    rw [createLoop, if_neg (by omega)]
    rfl
  | succ d ih =>
    rw [createLoop, if_pos (by omega), ih (i + 1) _ (by omega)]
    simp
    omega

/-- C9: for every canvas width and height, `createParticles` produces exactly
`min(floor(width * height / 10000), 120)` particles, hence never more than 120;
the connecting-line loop nest over `n` particles examines each pair `(i, j)`
with `i < j < n` exactly once and nothing else, that is `n (n - 1) / 2` pairs;
the particle pass of a frame keeps the number of particles, so a frame examines
at most `120 * 119 / 2 = 7140` pairs. -/
theorem createParticles_count_and_pairs (F : FloatOps) (rand : Nat → ℚ) (width height : Nat) :
    (createParticles F rand width height).length = min (width * height / 10000) 120 ∧
    (createParticles F rand width height).length ≤ 120 ∧
    (∀ n, (examinedPairs n).Nodup ∧ (∀ i j, (i, j) ∈ examinedPairs n ↔ i < j ∧ j < n) ∧
      (examinedPairs n).length = n * (n - 1) / 2) ∧
    (updateParticles F width height (createParticles F rand width height)).length
      = (createParticles F rand width height).length ∧
    (examinedPairs (updateParticles F width height
      (createParticles F rand width height)).length).length ≤ 7140 := by
  have hlen : (createParticles F rand width height).length = min (width * height / 10000) 120 := by
    simp [createParticles, particleCount, createLoop_length]
  have hle : (createParticles F rand width height).length ≤ 120 := by
    rw [hlen]; exact Nat.min_le_right _ _
  have hupd : (updateParticles F width height (createParticles F rand width height)).length
      = (createParticles F rand width height).length := by
    simp [updateParticles]
  refine ⟨hlen, hle, fun n => ⟨examinedPairs_nodup n, mem_examinedPairs n, examinedPairs_length n⟩,
    hupd, ?_⟩
  rw [hupd, examinedPairs_length]
  generalize (createParticles F rand width height).length = m at hle
  have h1 : m * (m - 1) ≤ 120 * 119 := Nat.mul_le_mul hle (by omega)
  calc m * (m - 1) / 2 ≤ 120 * 119 / 2 := Nat.div_le_div_right h1
    _ = 7140 := by norm_num

end Portfolio
